import Mathlib

/-!
Verification of the transaction-reconstruction logic of the PDF2EXCEL
repository.  Cell texts are modelled as lists of characters (`Str`);
pandas missing values (NaN) are modelled as the empty text, which is how
they behave under the scripts' `str(...)`/blank tests.  Each definition
below is a direct translation of a Python function from the repository;
the source file and function are named in its doc comment.
-/

namespace PdfEngine

/-- Cell text: a Python string, modelled as a list of characters. -/
abbrev Str := List Char

/-- A raw table row: an ordered list of text cells. -/
abbrev Row := List Str

/-- Python `str.strip` whitespace class (space, tab, newline, CR, VT, FF). -/
def isWsChar (c : Char) : Bool :=
  c = ' ' ∨ c = '\t' ∨ c = '\n' ∨ c = '\r' ∨ c = '\x0b' ∨ c = '\x0c'

/-- Python `str.lstrip()`. -/
def ltrim (l : Str) : Str := l.dropWhile isWsChar

/-- Python `str.rstrip()`. -/
def rtrim (l : Str) : Str := (l.reverse.dropWhile isWsChar).reverse

/-- Python `str.strip()`. -/
def trim (l : Str) : Str := rtrim (ltrim l)

/-- Python `str.lower()` (ASCII case folding). -/
def lower (l : Str) : Str := l.map Char.toLower

/-- Python `str.replace(c, "")`: remove every occurrence of one character. -/
def removeAll (c : Char) (l : Str) : Str := l.filter (fun a => a ≠ c)

/-- Leading digit run of a text: its length and the remaining characters.
Used to translate the greedy `\d{a,b}` pieces of the date regexes. -/
def digitRun : Str → Nat × Str
  | [] => (0, [])
  | c :: cs =>
    if c.isDigit then
      let p := digitRun cs
      (p.1 + 1, p.2)
    else (0, c :: cs)

/-- Leading whitespace run of a text (for the `\s+` regex pieces). -/
def wsRun : Str → Nat × Str
  | [] => (0, [])
  | c :: cs =>
    if isWsChar c then
      let p := wsRun cs
      (p.1 + 1, p.2)
    else (0, c :: cs)

/-- Date separator class `(slash or dash)` of the date regexes. -/
def isDateSep (c : Char) : Bool := c = '/' ∨ c = '-'

/-- Regex `\d{1,2}(slash or dash)\d{1,2}(slash or dash)\d{2,4}` anchored at the start
(`01_consolidate.py`, `is_date_like`, first pattern). -/
def datePat1 (l : Str) : Bool :=
  let p1 := digitRun l
  decide (1 ≤ p1.1 ∧ p1.1 ≤ 2) &&
    match p1.2 with
    | c :: r1 =>
      isDateSep c &&
        (let p2 := digitRun r1
         decide (1 ≤ p2.1 ∧ p2.1 ≤ 2) &&
           match p2.2 with
           | d :: r2 => isDateSep d && decide (2 ≤ (digitRun r2).1)
           | [] => false)
    | [] => false

/-- Regex `\d{2,4}(slash or dash)\d{1,2}(slash or dash)\d{1,2}` anchored at the start
(`01_consolidate.py`, `is_date_like`, second pattern). -/
def datePat2 (l : Str) : Bool :=
  let p1 := digitRun l
  decide (2 ≤ p1.1 ∧ p1.1 ≤ 4) &&
    match p1.2 with
    | c :: r1 =>
      isDateSep c &&
        (let p2 := digitRun r1
         decide (1 ≤ p2.1 ∧ p2.1 ≤ 2) &&
           match p2.2 with
           | d :: r2 => isDateSep d && decide (1 ≤ (digitRun r2).1)
           | [] => false)
    | [] => false

/-- The month-abbreviation alternation of the third date regex,
compared case-insensitively. -/
def monthAbbrevs : List Str :=
  [['j','a','n'], ['f','e','b'], ['m','a','r'], ['a','p','r'],
   ['m','a','y'], ['j','u','n'], ['j','u','l'], ['a','u','g'],
   ['s','e','p'], ['o','c','t'], ['n','o','v'], ['d','e','c']]

/-- Regex `\d{1,2}\s+(Jan|...|Dec)\s+\d{2,4}` anchored at the start, with
`re.IGNORECASE` (`01_consolidate.py`, `is_date_like`, third pattern). -/
def datePat3 (l : Str) : Bool :=
  let p1 := digitRun l
  decide (1 ≤ p1.1 ∧ p1.1 ≤ 2) &&
    (let w1 := wsRun p1.2
     decide (1 ≤ w1.1) &&
       match w1.2 with
       | a :: b :: c :: r2 =>
         decide (lower [a, b, c] ∈ monthAbbrevs) &&
           (let w2 := wsRun r2
            decide (1 ≤ w2.1) && decide (2 ≤ (digitRun w2.2).1))
       | _ => false)

/-- Regex `\d{1,2}(slash or dash)\d{1,2}(slash or dash)\d{4}` anchored at the start
(`01_consolidate.py`, `is_date_like`, fourth pattern). -/
def datePat4 (l : Str) : Bool :=
  let p1 := digitRun l
  decide (1 ≤ p1.1 ∧ p1.1 ≤ 2) &&
    match p1.2 with
    | c :: r1 =>
      isDateSep c &&
        (let p2 := digitRun r1
         decide (1 ≤ p2.1 ∧ p2.1 ≤ 2) &&
           match p2.2 with
           | d :: r2 => isDateSep d && decide (4 ≤ (digitRun r2).1)
           | [] => false)
    | [] => false

/-- `is_date_like` from `01_consolidate.py`: a blank/NaN/none cell is never
date-like; otherwise the stripped text must start with one of the four
date patterns. -/
def is_date_like (v : Str) : Bool :=
  if v = [] then false
  else
    let s := trim v
    if s = [] ∨ lower s = "nan".data ∨ lower s = "none".data then false
    else datePat1 s || datePat2 s || datePat3 s || datePat4 s

/-- Result of Python `float(...)` / `pandas.to_numeric`: a finite value,
an infinity, or NaN.  NaN also stands for `to_numeric`'s coercion result
on unparseable text. -/
inductive PyNum where
  | fin : ℚ → PyNum
  | inf : PyNum
  | nan : PyNum
deriving DecidableEq

/-- Numeric value of a list of decimal digit characters. -/
def digitsVal (ds : List Char) : ℕ :=
  ds.foldl (fun a c => 10 * a + (c.toNat - 48)) 0

/-- Fueled scanner for Python's digit sequences with single underscores
between digits (`1_000`): collected digits and the rest.  The fuel is the
input length; it only makes the recursion structural. -/
def uDigitsF : Nat → Str → List Char × Str
  | 0, l => ([], l)
  | _ + 1, [] => ([], [])
  | fuel + 1, c :: cs =>
    if c.isDigit then
      let p := uDigitsF fuel cs
      (c :: p.1, p.2)
    else if c = '_' then
      match cs with
      | d :: cs2 =>
        if d.isDigit then
          let p := uDigitsF fuel cs2
          (d :: p.1, p.2)
        else ([], c :: cs)
      | [] => ([], [c])
    else ([], c :: cs)

/-- A digit sequence of the Python float grammar: fails unless the text
starts with a digit. -/
def uDigits (l : Str) : Option (List Char × Str) :=
  match l with
  | c :: _ => if c.isDigit then some (uDigitsF l.length l) else none
  | [] => none

/-- Optional sign of the Python float grammar: whether a minus sign was
consumed, and the rest. -/
def parseSign : Str → Bool × Str
  | '-' :: r => (true, r)
  | '+' :: r => (false, r)
  | l => (false, l)

/-- Mantissa of the Python float grammar: `digits`, `digits.`,
`digits.digits` or `.digits`, returning its rational value and the rest. -/
def parseMant (l : Str) : Option (ℚ × Str) :=
  match uDigits l with
  | some (ds, r) =>
    match r with
    | '.' :: r2 =>
      match uDigits r2 with
      | some (fs, r3) =>
        some ((digitsVal ds : ℚ) + (digitsVal fs : ℚ) / (10 : ℚ) ^ fs.length, r3)
      | none => some ((digitsVal ds : ℚ), r2)
    | _ => some ((digitsVal ds : ℚ), r)
  | none =>
    match l with
    | '.' :: r2 =>
      match uDigits r2 with
      | some (fs, r3) => some ((digitsVal fs : ℚ) / (10 : ℚ) ^ fs.length, r3)
      | none => none
    | _ => none

/-- Python `float(text)`: strips whitespace, then an optional sign, then
either an infinity/NaN word or a decimal mantissa with optional exponent.
`none` models the `ValueError` on any other text.  Values are exact
rationals (double rounding and overflow are not modelled; no claim here
depends on them). -/
def pyFloat (v : Str) : Option PyNum :=
  let t := trim v
  let sg := parseSign t
  let rl := lower sg.2
  if rl = "inf".data ∨ rl = "infinity".data then some .inf
  else if rl = "nan".data then some .nan
  else
    match parseMant sg.2 with
    | some (m, r2) =>
      let m := if sg.1 then -m else m
      match r2 with
      | [] => some (.fin m)
      | c :: r3 =>
        if c = 'e' ∨ c = 'E' then
          let esg := parseSign r3
          match uDigits esg.2 with
          | some (ds, r5) =>
            if r5 = [] then
              some (.fin (m * (10 : ℚ) ^
                (if esg.1 then -(digitsVal ds : ℤ) else (digitsVal ds : ℤ))))
            else none
          | none => none
        else none
    | none => none

/-- `is_amount_like` from `01_consolidate.py`: strip, drop commas and
spaces; blank/NaN/none text is never an amount; otherwise amount-like iff
Python `float` accepts the text. -/
def is_amount_like (v : Str) : Bool :=
  if v = [] then false
  else
    let s := removeAll ' ' (removeAll ',' (trim v))
    if s = [] ∨ lower s = "nan".data ∨ lower s = "none".data then false
    else (pyFloat s).isSome

/-- Continuation-cell content test of `01_consolidate.py`
(`pd.notna(cell) and str(cell).strip() != '' and
str(cell).strip().lower() != 'nan'`). -/
def hasContent (x : Str) : Bool := trim x ≠ [] ∧ lower (trim x) ≠ "nan".data

/-- Per-column merge policy of the consolidation loop of
`01_consolidate.py` (lines 148-167): column 1 (Particulars) appends with a
single space, columns ≥ 2 (Withdrawals/Deposits/Balance) fill only an
empty cell and only from an amount-like cell, other columns fill only an
empty cell.  `c` is the open record's cell, `x` the continuation row's. -/
def mergeCell01 (i : Nat) (c x : Str) : Str :=
  if hasContent x then
    let v := trim x
    if i = 1 then
      if trim c ≠ [] then trim c ++ " ".data ++ v else v
    else if 2 ≤ i then
      if is_amount_like x ∧ trim c = [] then v else c
    else
      if trim c = [] then v else c
  else c

/-- One continuation row merged into the open record
(`01_consolidate.py`, the `for i, cell in enumerate(row)` loop): cell `i`
of the record is updated when `i` is also a position of the incoming row. -/
def mergeRow01 (c r : Row) : Row :=
  (List.range c.length).map fun i =>
    if i < r.length then mergeCell01 i (c.getD i []) (r.getD i []) else c.getD i []

/-- Whether a row opens a new transaction (`01_consolidate.py` line 133:
the first cell is date-like; an empty row counts as not date-like). -/
def isDateRow (r : Row) : Bool := is_date_like (r.getD 0 [])

/-- The consolidation loop of `01_consolidate.py` (lines 128-177) with its
cursor: a date row emits the open record and opens a new one; a
continuation row merges into the open record; an orphan continuation row
with no open record is discarded (only logged); end of input emits the
open record. -/
def consolidateAux : Option Row → List Row → List Row
  | cur, [] => cur.toList
  | cur, r :: rs =>
    if isDateRow r then cur.toList ++ consolidateAux (some r) rs
    else
      match cur with
      | some c => consolidateAux (some (mergeRow01 c r)) rs
      | none => consolidateAux none rs

/-- Full consolidation pass of `01_consolidate.py`, starting with no open
record. -/
def consolidate (rows : List Row) : List Row := consolidateAux none rows

/-- The engine's final output for `01_consolidate.py`: consolidation
followed by the final date filter of line 236
(`final_df[final_df['Date'].apply(is_date_like)]`). -/
def engineOutput (rows : List Row) : List Row :=
  (consolidate rows).filter (fun r => is_date_like (r.getD 0 []))

/-- Per-column merge policy of `project canara/scripts/02_consolidate.py`
(lines 72-78): column 3 (Description) appends raw text with a space when
the record's cell is present; every other column fills only an empty cell,
with no amount-like requirement. -/
def mergeCellCanara (i : Nat) (c x : Str) : Str :=
  if trim x ≠ [] then
    if i = 3 ∧ c ≠ [] then c ++ " ".data ++ x
    else if c = [] ∨ trim c = [] then x
    else c
  else c

/-- Whether `pat` occurs as a contiguous substring of `l` (Python
`keyword in value`). -/
def containsSub (pat : Str) : Str → Bool
  | [] => pat.isPrefixOf []
  | c :: cs => pat.isPrefixOf (c :: cs) || containsSub pat cs

/-- Header keywords of `01_consolidate.py` (line 34). -/
def headerKeywords : List Str :=
  ["date".data, "particular".data, "withdrawal".data, "deposit".data, "balance".data]

/-- Header-row criterion of `01_consolidate.py` (lines 29-39): at least 5
cells, and at least 3 of the 5 keywords occur in the stripped, lowered
first 5 cells. -/
def isHeaderRow (r : Row) : Bool :=
  if 5 ≤ r.length then
    let vals := (r.take 5).map (fun v => lower (trim v))
    3 ≤ headerKeywords.countP (fun kw => vals.any (fun v => containsSub kw v))
  else false

/-- Header-deduplication loop of `01_consolidate.py` (lines 24-52): the
first header row is kept, every later header row is dropped, every other
row is kept; `found` records whether a header was already seen. -/
def dedupHeadersAux (found : Bool) : List Row → List Row
  | [] => []
  | r :: rs =>
    if isHeaderRow r then
      if found then dedupHeadersAux true rs else r :: dedupHeadersAux true rs
    else r :: dedupHeadersAux found rs

/-- Header deduplication starting with no header seen. -/
def dedupHeaders (rows : List Row) : List Row := dedupHeadersAux false rows

/-- Blank test of `fix_csv_data_shift`
(`project hdfc/scripts/03_shifthdfc.py` line 32: stripped cell empty or
NaN). -/
def isBlankCell (v : Str) : Bool := trim v = []

/-- The row-shift loop body of `fix_csv_data_shift`
(`project hdfc/scripts/03_shifthdfc.py` lines 41-43): for positions
`s, s+1, ..., s+len-1` write the original row's next cell. -/
def shiftSeg (row : Row) : Nat → Nat → Row → Row
  | _, 0, acc => acc
  | s, len + 1, acc => shiftSeg row (s + 1) len (acc.set s (row.getD (s + 1) []))

/-- Shift repair of one row (`fix_csv_data_shift`,
`project hdfc/scripts/03_shifthdfc.py` lines 36-46): when the anchor
(Chq/Ref) cell at position `a` is blank, the cell after the anchor moves
into the anchor, every later cell moves one position left, and the last
cell is cleared; otherwise the row is untouched. -/
def rowFixShift (a : Nat) (row : Row) : Row :=
  if isBlankCell (row.getD a []) then
    let actual := if a + 1 < row.length then row.getD (a + 1) [] else []
    let r1 := row.set a actual
    let r2 := shiftSeg row (a + 1) (row.length - 1 - (a + 1)) r1
    r2.set (r2.length - 1) []
  else row

/-- Whole-table shift repair: `fix_csv_data_shift` fixes every row whose
anchor cell is blank. -/
def tableFixShift (a : Nat) (rows : List Row) : List Row :=
  rows.map (rowFixShift a)

/-- `is_empty_or_zero` from `fix_balance_column_shift`
(`project hdfc/scripts/04_closingbal.py`): NaN, blank or "nan" text, or a
text whose comma-stripped Python float value is exactly zero. -/
def isEmptyOrZero (v : Str) : Bool :=
  let t := lower (trim v)
  if t = [] ∨ t = "nan".data then true
  else
    match pyFloat (removeAll ',' v) with
    | some (.fin q) => q = 0
    | _ => false

/-- Rotation repair of one row (`fix_balance_column_shift`,
`project hdfc/scripts/04_closingbal.py` lines 48-53): when the balance
cell at `b` is empty-or-zero, the deposit at `d` moves into the balance,
the withdrawal at `w` moves into the deposit, and the withdrawal is
cleared; otherwise the row is untouched. -/
def rowRotate (w d b : Nat) (row : Row) : Row :=
  if isEmptyOrZero (row.getD b []) then
    ((row.set b (row.getD d [])).set d (row.getD w [])).set w []
  else row

/-- Whole-table rotation repair of `fix_balance_column_shift`. -/
def tableRotate (w d b : Nat) (rows : List Row) : List Row :=
  rows.map (rowRotate w d b)

/-- Numeric cleaning of `fix_csv_data_shift`
(`project hdfc/scripts/03_shifthdfc.py` lines 48-57): drop commas, map
the empty text to "0", then `pd.to_numeric(..., errors="coerce")`, which
yields NaN on text `float` rejects. -/
def cleanNumericShift (v : Str) : PyNum :=
  let t := removeAll ',' v
  let t := if t = [] then "0".data else t
  match pyFloat t with
  | some x => x
  | none => .nan

/-- Numeric cleaning of `fix_balance_column_shift`
(`project hdfc/scripts/04_closingbal.py` lines 55-62): the same cleaning
followed by `.fillna(0)`, which replaces NaN by the number 0. -/
def cleanNumericBal (v : Str) : PyNum :=
  match cleanNumericShift v with
  | .nan => .fin 0
  | x => x

/-- A row of the HDFC narration-merge stage
(`project hdfc/scripts/02_mergenarration.py`): its Date cell, its
Narration cell, and the remaining cells, which the stage never touches. -/
structure HRow where
  date : Str
  narr : Str
  rest : List Str
deriving DecidableEq

/-- `is_empty_date` from `project hdfc/scripts/02_mergenarration.py`
(lines 101-106): NaN, blank, or the text nan/null/none. -/
def is_empty_date (d : Str) : Bool :=
  let t := lower (trim d)
  t = [] ∨ t = "nan".data ∨ t = "null".data ∨ t = "none".data

/-- `clean_narration` from `project hdfc/scripts/02_mergenarration.py`. -/
def clean_narration (n : Str) : Str := trim n

/-- The row loop of `merge_narration_rows`
(`project hdfc/scripts/02_mergenarration.py` lines 116-145): an
empty-date row's cleaned narration is appended (space-separated) to the
open row's narration and the row is skipped; a row with a non-empty date
emits the open row and becomes the new open row; end of input emits the
open row. -/
def mergeNarrAux : Option HRow → List HRow → List HRow
  | cur, [] => cur.toList
  | cur, r :: rs =>
    if is_empty_date r.date then
      match cur with
      | some c =>
        if clean_narration r.narr ≠ [] then
          let cn := clean_narration c.narr
          let nn := if cn ≠ [] then cn ++ " ".data ++ clean_narration r.narr
                    else clean_narration r.narr
          mergeNarrAux (some { c with narr := nn }) rs
        else mergeNarrAux (some c) rs
      | none => mergeNarrAux none rs
    else cur.toList ++ mergeNarrAux (some r) rs

/-- Full narration-merge pass of `merge_narration_rows`. -/
def mergeNarration (rows : List HRow) : List HRow := mergeNarrAux none rows

/-- `shift_left_selected_block`'s row operation (`empty_column_ident.py`
line 34: `row[:col_idx] + row[col_idx+1:] + [""]`). -/
def shiftRowLeft (col : Nat) (r : Row) : Row :=
  r.take col ++ r.drop (col + 1) ++ [[]]

/-- `shift_left_selected_block` (`empty_column_ident.py` lines 30-37):
rows with index in `[start, stop)` get the cell at `col` removed and a
trailing blank appended; other rows are untouched. -/
def shiftBlock (col start stop : Nat) (rows : List Row) : List Row :=
  rows.enum.map (fun p => if start ≤ p.1 ∧ p.1 < stop then shiftRowLeft col p.2 else p.2)

/-- Header repair of `process_bank_statement` (`empty_column_ident.py`
lines 66-74): pop the header at `col` and append an empty name,
guarded by `col < len(headers)`. -/
def fixHeaders (col : Nat) (hs : List Str) : List Str :=
  if col < hs.length then hs.eraseIdx col ++ [[]] else hs

/-- The completely-blank-row test of
`project kotak/scripts/mergenarr.py` (line 17:
`all(cell.strip() == "" for cell in row.values)`), over a row's Date,
Narration and remaining cells. -/
def kotakAllBlank (r : HRow) : Bool :=
  trim r.date = [] ∧ trim r.narr = [] ∧ r.rest.all (fun c => trim c = [])

/-- The row loop of `merge_narration_and_remove_empty_rows`
(`project kotak/scripts/mergenarr.py` lines 13-25): `cleaned` is the
accumulated `cleaned_rows`, `i` the loop index over every input row.  A
completely blank row is skipped; a later row with blank Date and
non-blank Narration is merged into the last accumulated row — indexing
`cleaned_rows[-1]` raises `IndexError` when that list is empty, modelled
as `none`; every other row is appended. -/
def mergeNarrKotakAux (cleaned : List HRow) (i : Nat) :
    List HRow → Option (List HRow)
  | [] => some cleaned
  | r :: rs =>
    if kotakAllBlank r then mergeNarrKotakAux cleaned (i + 1) rs
    else if 0 < i ∧ trim r.date = [] ∧ trim r.narr ≠ [] then
      match cleaned.getLast? with
      | some prev =>
        mergeNarrKotakAux
          (cleaned.dropLast ++
            [{ prev with narr := trim (prev.narr ++ " ".data ++ r.narr) }])
          (i + 1) rs
      | none => none
    else mergeNarrKotakAux (cleaned ++ [r]) (i + 1) rs

/-- Full pass of `merge_narration_and_remove_empty_rows`: `none` models
the `IndexError` escaping the loop, which the script's top-level handler
turns into an aborted run with no output written. -/
def mergeNarrKotak (rows : List HRow) : Option (List HRow) :=
  mergeNarrKotakAux [] 0 rows

/-! Helper lemmas about list indexing. -/

lemma getD_nil (j : Nat) : ([] : Row).getD j [] = [] := by
  cases j <;> rfl

lemma getD_cons_zero (a : Str) (l : Row) : (a :: l).getD 0 [] = a := rfl

lemma getD_cons_succ (a : Str) (l : Row) (j : Nat) :
    (a :: l).getD (j + 1) [] = l.getD j [] := rfl

lemma getD_set_self (l : Row) (i : Nat) (v : Str) (h : i < l.length) :
    (l.set i v).getD i [] = v := by
  induction l generalizing i with
  | nil => simp at h
  | cons a t ih =>
    cases i with
    | zero => rfl
    | succ i =>
      simp only [List.set_cons_succ, getD_cons_succ]
      exact ih i (by simpa using h)

lemma getD_set_ne (l : Row) (i j : Nat) (v : Str) (h : i ≠ j) :
    (l.set i v).getD j [] = l.getD j [] := by
  induction l generalizing i j with
  | nil => simp
  | cons a t ih =>
    cases i with
    | zero =>
      cases j with
      | zero => exact absurd rfl h
      | succ j => rfl
    | succ i =>
      cases j with
      | zero => rfl
      | succ j =>
        simp only [List.set_cons_succ, getD_cons_succ]
        exact ih i j (by omega)

lemma getD_range_map (n : Nat) (f : Nat → Str) (i : Nat) :
    (((List.range n).map f).getD i []) = if i < n then f i else [] := by
  induction n generalizing i with
  | zero => simp [getD_nil]
  | succ n ih =>
    rw [List.range_succ, List.map_append]
    rcases Nat.lt_trichotomy i n with h | h | h
    · rw [List.getD_append _ _ _ _ (by simpa using h), ih, if_pos h, if_pos (by omega)]
    · subst h
      rw [List.getD_append_right _ _ _ _ (by simp), if_pos (by omega)]
      simp
    · rw [List.getD_append_right _ _ _ _ (by simp; omega), if_neg (by omega)]
      have hd : i - (List.map f (List.range n)).length ≠ 0 := by simp; omega
      rcases Nat.exists_eq_succ_of_ne_zero hd with ⟨k, hk⟩
      rw [hk]
      simp [getD_nil]

/-! Claim C7: row-count invariant of the consolidation loop. -/

lemma consolidateAux_length (rows : List Row) :
    ∀ cur : Option Row,
      (consolidateAux cur rows).length = cur.toList.length + rows.countP isDateRow := by
  induction rows with
  | nil => intro cur; simp [consolidateAux]
  | cons r rs ih =>
    intro cur
    by_cases h : isDateRow r
    · simp only [consolidateAux, if_pos h]
      rw [List.length_append, ih (some r), List.countP_cons_of_pos _ _ h]
      simp only [Option.toList_some, List.length_singleton]
      omega
    · simp only [consolidateAux, if_neg h, List.countP_cons_of_neg _ _ h]
      cases cur with
      | none => simp [ih]
      | some c => simp [ih]

/-- Claim C7: the consolidation loop of `01_consolidate.py` emits at most
one record per date-like input row; in fact it emits exactly one record
per date-like row, so equality holds in particular when no orphan rows
were discarded, and orphan (non-date-like) rows never produce a record. -/
theorem claim7_row_count (rows : List Row) :
    (consolidate rows).length ≤ rows.countP isDateRow ∧
    (consolidate rows).length = rows.countP isDateRow := by
  have h := consolidateAux_length rows none
  simp only [Option.toList_none, List.length_nil, Nat.zero_add] at h
  exact ⟨le_of_eq h, h⟩

/-! Claim C9: totality of the consolidation passes. -/

lemma mergeNarrKotakAux_isSome (rows : List HRow) :
    ∀ (cleaned : List HRow) (i : Nat), cleaned ≠ [] →
      (mergeNarrKotakAux cleaned i rows).isSome = true := by
  induction rows with
  | nil => intro cleaned i _; rfl
  | cons r rs ih =>
    intro cleaned i hc
    by_cases hb : kotakAllBlank r = true
    · simp only [mergeNarrKotakAux, hb, if_true]
      exact ih cleaned (i + 1) hc
    · simp only [mergeNarrKotakAux, hb, Bool.false_eq_true, if_false]
      by_cases hm : 0 < i ∧ trim r.date = [] ∧ trim r.narr ≠ []
      · rw [if_pos hm, List.getLast?_eq_getLast cleaned hc]
        exact ih _ (i + 1) (by simp)
      · rw [if_neg hm]
        exact ih _ (i + 1) (by simp)

/-- Claim C9, amended: the cell classifiers and the `01_consolidate.py`
consolidation pass are total — an orphan continuation row before any
transaction row is silently discarded and consolidation proceeds on the
remaining rows — and the kotak narration merge completes whenever its
input does not start with a completely blank row; but the kotak variant
is not total: a blank-date continuation row that follows only
completely-blank rows makes `cleaned_rows[-1]` raise `IndexError`
(see the counterexample). -/
theorem claim9_amended :
    (∀ (r : Row) (rows : List Row), isDateRow r = false →
      consolidate (r :: rows) = consolidate rows) ∧
    (∀ (r : HRow) (rs : List HRow), kotakAllBlank r = false →
      (mergeNarrKotak (r :: rs)).isSome = true) := by
  constructor
  · intro r rows h
    simp [consolidate, consolidateAux, h]
  · intro r rs hb
    unfold mergeNarrKotak
    simp only [mergeNarrKotakAux, hb, Bool.false_eq_true, if_false,
      if_neg (show ¬ (0 < 0 ∧ trim r.date = [] ∧ trim r.narr ≠ []) from
        fun h => absurd h.1 (by omega))]
    exact mergeNarrKotakAux_isSome rs ([] ++ [r]) 1 (by simp)

/-- Witness for the amended C9: an orphan amount row before any date row
is discarded by the 01 consolidator, and the kotak merge completes on an
input whose first row is a real transaction row. -/
theorem claim9_amended_witness :
    consolidate [[[], "desc".data, "50".data]] = consolidate [] ∧
    (mergeNarrKotak [⟨"01-04-2024".data, "x".data, []⟩]).isSome = true :=
  ⟨claim9_amended.1 [[], "desc".data, "50".data] [] (by decide),
   claim9_amended.2 ⟨"01-04-2024".data, "x".data, []⟩ [] (by decide)⟩

/-- Counterexample to C9 as stated: in
`project kotak/scripts/mergenarr.py` a completely blank row is skipped,
so the following orphan row (blank Date, non-empty Narration, index 1)
executes `cleaned_rows[-1]` on the empty list and the pass aborts with
`IndexError` instead of completing. -/
theorem claim9_counterexample :
    mergeNarrKotak [⟨[], [], []⟩, ⟨[], "x".data, []⟩] = none := by
  rfl

/-! Claim C5: header deduplication. -/

lemma dedupHeadersAux_sublist (rows : List Row) :
    ∀ f, List.Sublist (dedupHeadersAux f rows) rows := by
  induction rows with
  | nil => intro f; simp [dedupHeadersAux]
  | cons r rs ih =>
    intro f
    by_cases h : isHeaderRow r
    · by_cases hf : f
      · subst hf
        simp only [dedupHeadersAux, if_pos h, if_pos]
        exact (ih true).cons r
      · simp only [Bool.not_eq_true] at hf
        subst hf
        simp only [dedupHeadersAux, if_pos h, Bool.false_eq_true, if_false]
        exact (ih true).cons₂ r
    · simp only [dedupHeadersAux, if_neg h]
      exact (ih f).cons₂ r

lemma dedupHeadersAux_true (rows : List Row) :
    dedupHeadersAux true rows = rows.filter (fun r => !isHeaderRow r) := by
  induction rows with
  | nil => rfl
  | cons r rs ih =>
    by_cases h : isHeaderRow r
    · simp [dedupHeadersAux, h, ih]
    · simp [dedupHeadersAux, h, List.filter_cons, ih]

lemma dedupHeadersAux_filter_nonheader (rows : List Row) :
    ∀ f, (dedupHeadersAux f rows).filter (fun r => !isHeaderRow r) =
      rows.filter (fun r => !isHeaderRow r) := by
  induction rows with
  | nil => intro f; rfl
  | cons r rs ih =>
    intro f
    by_cases h : isHeaderRow r
    · by_cases hf : f
      · subst hf
        simp only [dedupHeadersAux, if_pos h, if_pos]
        rw [ih true, List.filter_cons, if_neg (by simp [h])]
      · simp only [Bool.not_eq_true] at hf
        subst hf
        simp only [dedupHeadersAux, if_pos h, Bool.false_eq_true, if_false]
        rw [List.filter_cons, if_neg (by simp [h]), ih true,
          List.filter_cons, if_neg (by simp [h])]
    · simp only [dedupHeadersAux, if_neg h]
      rw [List.filter_cons, if_pos (by simp [h]), ih f,
        List.filter_cons, if_pos (by simp [h])]

lemma filter_header_of_filter_nonheader (rows : List Row) :
    (rows.filter (fun r => !isHeaderRow r)).filter (fun r => isHeaderRow r) = [] := by
  induction rows with
  | nil => rfl
  | cons r rs ih =>
    by_cases h : isHeaderRow r
    · simp [List.filter_cons, h, ih]
    · simp [List.filter_cons, h, ih]

lemma dedupHeadersAux_filter_header (rows : List Row) :
    (dedupHeadersAux false rows).filter (fun r => isHeaderRow r) =
      (rows.find? isHeaderRow).toList := by
  induction rows with
  | nil => rfl
  | cons r rs ih =>
    by_cases h : isHeaderRow r
    · simp only [dedupHeadersAux, if_pos h, Bool.false_eq_true, if_false]
      rw [List.filter_cons, if_pos (by simp [h]), dedupHeadersAux_true,
        filter_header_of_filter_nonheader, List.find?_cons_of_pos _ h]
      rfl
    · simp only [dedupHeadersAux, if_neg h]
      rw [List.filter_cons, if_neg (by simp [h]), ih, List.find?_cons_of_neg _ h]

/-- Claim C5: header deduplication of `01_consolidate.py` keeps exactly
the first header occurrence, drops every later header-matching row, never
alters a non-header row (the output is a sublist of the input and the
non-header rows pass through unchanged), and the output contains at most
one header-matching row, so no data row equal to the header text remains. -/
theorem claim5_header_dedup (rows : List Row) :
    List.Sublist (dedupHeaders rows) rows ∧
    (dedupHeaders rows).filter (fun r => !isHeaderRow r) =
      rows.filter (fun r => !isHeaderRow r) ∧
    (dedupHeaders rows).filter (fun r => isHeaderRow r) =
      (rows.find? isHeaderRow).toList ∧
    (dedupHeaders rows).countP (fun r => isHeaderRow r) ≤ 1 := by
  refine ⟨dedupHeadersAux_sublist rows false,
    dedupHeadersAux_filter_nonheader rows false,
    dedupHeadersAux_filter_header rows, ?_⟩
  rw [List.countP_eq_length_filter, dedupHeaders, dedupHeadersAux_filter_header rows]
  cases rows.find? isHeaderRow <;> simp

/-! Claim C1: dates of emitted records. -/

lemma mergeNarrAux_date_invariant (rows : List HRow) :
    ∀ cur : Option HRow, (∀ c, cur = some c → is_empty_date c.date = false) →
      ∀ r ∈ mergeNarrAux cur rows, is_empty_date r.date = false := by
  induction rows with
  | nil =>
    intro cur hcur r hr
    cases cur with
    | none => simp [mergeNarrAux] at hr
    | some c =>
      simp only [mergeNarrAux, Option.toList_some, List.mem_singleton] at hr
      subst hr
      exact hcur r rfl
  | cons x rs ih =>
    intro cur hcur r hr
    by_cases hx : is_empty_date x.date
    · cases cur with
      | none =>
        simp only [mergeNarrAux, if_pos hx] at hr
        exact ih none (by intro c hc; cases hc) r hr
      | some c =>
        simp only [mergeNarrAux, if_pos hx] at hr
        by_cases hn : clean_narration x.narr ≠ []
        · rw [if_pos hn] at hr
          refine ih _ ?_ r hr
          intro c' hc'
          simp only [Option.some.injEq] at hc'
          subst hc'
          exact hcur c rfl
        · rw [if_neg hn] at hr
          exact ih (some c) hcur r hr
    · simp only [mergeNarrAux, if_neg hx, List.mem_append] at hr
      rcases hr with hr | hr
      · cases cur with
        | none => simp at hr
        | some c =>
          simp only [Option.toList_some, List.mem_singleton] at hr
          subst hr
          exact hcur r rfl
      · refine ih (some x) ?_ r hr
        intro c hc
        simp only [Option.some.injEq] at hc
        subst hc
        exact Bool.eq_false_iff.mpr hx

/-- Claim C1, amended: the consolidation engine of `01_consolidate.py`
(consolidation followed by the final date filter) emits only records whose
Date cell is date-like; the HDFC narration-merge stage guarantees only
that every emitted record has a non-blank Date (`is_empty_date` false) —
its Date need not match the date-pattern classifier. -/
theorem claim1_amended :
    (∀ (rows : List Row) (r : Row), r ∈ engineOutput rows →
      is_date_like (r.getD 0 []) = true) ∧
    (∀ (rows : List HRow) (r : HRow), r ∈ mergeNarration rows →
      is_empty_date r.date = false) := by
  constructor
  · intro rows r hr
    have hr' : r ∈ (consolidate rows).filter (fun r => is_date_like (r.getD 0 [])) := hr
    exact (List.mem_filter.mp hr').2
  · intro rows r hr
    exact mergeNarrAux_date_invariant rows none (by intro c hc; cases hc) r hr

/-- Witness for the amended C1: a concrete record of each stage. -/
theorem claim1_amended_witness :
    is_date_like ((["01-04-2024".data, "x".data] : Row).getD 0 []) = true ∧
    is_empty_date (HRow.mk "hello".data "x".data []).date = false :=
  ⟨claim1_amended.1 [["01-04-2024".data, "x".data]] _ (by decide),
   claim1_amended.2 [⟨"hello".data, "x".data, []⟩] _ (by decide)⟩

/-- Counterexample to C1 as stated: the HDFC narration-merge stage emits a
record whose Date cell is non-blank but fails the date-pattern classifier,
so not every record of the engine's final output has a DateLike Date. -/
theorem claim1_counterexample :
    mergeNarration [⟨"hello".data, "x".data, []⟩] = [⟨"hello".data, "x".data, []⟩] ∧
    is_empty_date "hello".data = false ∧
    is_date_like "hello".data = false := by
  refine ⟨?_, by decide, by decide⟩
  rfl

/-! Claim C3: amount-column fill policy during consolidation. -/

lemma mergeCell01_amount_keep (i : Nat) (c x : Str) (hi : 2 ≤ i)
    (hc : trim c ≠ []) : mergeCell01 i c x = c := by
  simp only [mergeCell01]
  by_cases hx : hasContent x = true
  · rw [if_pos hx, if_neg (show ¬ i = 1 by omega), if_pos hi,
      if_neg (show ¬ (is_amount_like x = true ∧ trim c = []) from fun h => hc h.2)]
  · rw [if_neg hx]

lemma mergeCell01_amount_only_if (i : Nat) (c x : Str) (hi : 2 ≤ i)
    (hne : mergeCell01 i c x ≠ c) :
    trim c = [] ∧ is_amount_like x = true := by
  by_cases hc : trim c = []
  · refine ⟨hc, ?_⟩
    by_cases ha : is_amount_like x = true
    · exact ha
    · exfalso
      apply hne
      simp only [mergeCell01]
      by_cases hx : hasContent x = true
      · rw [if_pos hx, if_neg (show ¬ i = 1 by omega), if_pos hi,
          if_neg (show ¬ (is_amount_like x = true ∧ trim c = []) from fun h => ha h.1)]
      · rw [if_neg hx]
  · exact absurd (mergeCell01_amount_keep i c x hi hc) hne

lemma mergeRow01_getD (c r : Row) (i : Nat) :
    (mergeRow01 c r).getD i [] =
      if i < c.length then
        (if i < r.length then mergeCell01 i (c.getD i []) (r.getD i []) else c.getD i [])
      else [] := by
  simp only [mergeRow01]
  rw [getD_range_map]

lemma mergeRow01_length (c r : Row) : (mergeRow01 c r).length = c.length := by
  simp [mergeRow01]

lemma foldl_mergeRow01_amount_keep (conts : List Row) :
    ∀ (cur : Row) (i : Nat), 2 ≤ i → trim (cur.getD i []) ≠ [] →
      (conts.foldl mergeRow01 cur).getD i [] = cur.getD i [] := by
  induction conts with
  | nil => intro cur i _ _; rfl
  | cons x cs ih =>
    intro cur i hi hc
    have hlt : i < cur.length := by
      by_contra hge
      exact hc (by rw [List.getD_eq_default _ _ (by omega)]; rfl)
    have hstep : (mergeRow01 cur x).getD i [] = cur.getD i [] := by
      rw [mergeRow01_getD, if_pos hlt]
      split_ifs with h2
      · exact mergeCell01_amount_keep i _ _ hi hc
      · rfl
    calc ((x :: cs).foldl mergeRow01 cur).getD i []
        = (cs.foldl mergeRow01 (mergeRow01 cur x)).getD i [] := rfl
      _ = (mergeRow01 cur x).getD i [] := ih _ i hi (by rw [hstep]; exact hc)
      _ = cur.getD i [] := hstep

lemma mergeCellCanara_keep (i : Nat) (c x : Str) (hi : i ≠ 3)
    (hc : trim c ≠ []) : mergeCellCanara i c x = c := by
  have hc0 : c ≠ [] := by
    intro h; subst h; exact hc rfl
  simp only [mergeCellCanara]
  by_cases hx : trim x ≠ []
  · rw [if_pos hx, if_neg (show ¬ (i = 3 ∧ c ≠ []) from fun h => hi h.1),
      if_neg (show ¬ (c = [] ∨ trim c = []) from ?_)]
    rintro (h | h)
    · exact hc0 h
    · exact hc h
  · rw [if_neg hx]

lemma mergeCellCanara_only_if (i : Nat) (c x : Str) (hi : i ≠ 3)
    (hne : mergeCellCanara i c x ≠ c) : trim c = [] := by
  by_cases hc : trim c = []
  · exact hc
  · exact absurd (mergeCellCanara_keep i c x hi hc) hne

/-- Claim C3, amended: in `01_consolidate.py` an amount column (index ≥ 2)
of the open record is written from a continuation row only when the
record's cell is empty and the incoming cell is amount-like, and a
non-empty amount cell is never changed by any later continuation row; in
the canara variant a non-Description column is likewise written only when
the record's cell is empty, but with no amount-like requirement on the
incoming cell. -/
theorem claim3_amended :
    (∀ (i : Nat) (c x : Str), 2 ≤ i → trim c ≠ [] → mergeCell01 i c x = c) ∧
    (∀ (i : Nat) (c x : Str), 2 ≤ i → mergeCell01 i c x ≠ c →
      trim c = [] ∧ is_amount_like x = true) ∧
    (∀ (conts : List Row) (cur : Row) (i : Nat), 2 ≤ i →
      trim (cur.getD i []) ≠ [] →
      (conts.foldl mergeRow01 cur).getD i [] = cur.getD i []) ∧
    (∀ (i : Nat) (c x : Str), i ≠ 3 → trim c ≠ [] → mergeCellCanara i c x = c) ∧
    (∀ (i : Nat) (c x : Str), i ≠ 3 → mergeCellCanara i c x ≠ c → trim c = []) :=
  ⟨mergeCell01_amount_keep, mergeCell01_amount_only_if,
   fun conts cur i hi hc => foldl_mergeRow01_amount_keep conts cur i hi hc,
   mergeCellCanara_keep, mergeCellCanara_only_if⟩

/-- Witness for the amended C3: a populated Withdrawals cell survives a
continuation row in both variants, and an empty canara Debit cell is
filled by arbitrary text. -/
theorem claim3_amended_witness :
    mergeCell01 2 "50".data "99".data = "50".data ∧
    mergeCellCanara 5 "50".data "abc".data = "50".data :=
  ⟨claim3_amended.1 2 _ _ (by omega) (by decide),
   claim3_amended.2.2.2.1 5 _ _ (by omega) (by decide)⟩

/-- Counterexample to C3 as stated: the canara consolidator
(`project canara/scripts/02_consolidate.py` lines 72-78) writes the
non-amount-like text "abc" from a continuation row into the empty Debit
column (index 5) of the open record. -/
theorem claim3_counterexample :
    mergeCellCanara 5 [] "abc".data = "abc".data ∧
    is_amount_like "abc".data = false := by
  constructor
  · rfl
  · rfl

/-! Helper lemmas about `trim` on texts that carry no edge whitespace. -/

lemma ltrim_eq_dropWhile (l : Str) : ltrim l = List.dropWhile isWsChar l := rfl

lemma rtrim_eq_rdropWhile (l : Str) : rtrim l = List.rdropWhile isWsChar l := rfl

lemma trim_parts (l : Str) (h : trim l = l) : ltrim l = l ∧ rtrim l = l := by
  have h1 : List.IsSuffix (ltrim l) l := by
    rw [ltrim_eq_dropWhile]
    exact List.dropWhile_suffix isWsChar
  have h2 : List.IsPrefix (rtrim (ltrim l)) (ltrim l) := by
    rw [rtrim_eq_rdropWhile]
    exact List.rdropWhile_prefix isWsChar (ltrim l)
  have hlen1 : (ltrim l).length ≤ l.length := h1.sublist.length_le
  have hlen2 : l.length ≤ (ltrim l).length := by
    have := h2.sublist.length_le
    rw [show rtrim (ltrim l) = l from h] at this
    exact this
  have hl : ltrim l = l := h1.eq_of_length (le_antisymm hlen1 hlen2)
  refine ⟨hl, ?_⟩
  calc rtrim l = rtrim (ltrim l) := by rw [hl]
    _ = l := h

lemma head_not_ws (l : Str) (h : trim l = l) (h0 : l ≠ []) :
    ∃ c t, l = c :: t ∧ isWsChar c = false := by
  rcases List.exists_cons_of_ne_nil h0 with ⟨c, t, rfl⟩
  refine ⟨c, t, rfl, ?_⟩
  have hl := (trim_parts _ h).1
  rw [ltrim_eq_dropWhile, List.dropWhile_cons] at hl
  by_cases hw : isWsChar c = true
  · rw [if_pos hw] at hl
    have := congrArg List.length hl
    have hle := (List.dropWhile_suffix (l := t) isWsChar).sublist.length_le
    simp only [List.length_cons] at this
    omega
  · exact Bool.eq_false_iff.mpr hw

lemma last_not_ws (l : Str) (h : trim l = l) (h0 : l ≠ []) :
    isWsChar (l.getLast h0) = false := by
  have hr := (trim_parts _ h).2
  rw [rtrim_eq_rdropWhile] at hr
  have := List.rdropWhile_eq_self_iff.mp hr h0
  exact Bool.eq_false_iff.mpr this

lemma trim_append_clean (x y : Str) (hx : trim x = x) (hx0 : x ≠ [])
    (hy : trim y = y) (hy0 : y ≠ []) :
    trim (x ++ ' ' :: y) = x ++ ' ' :: y := by
  rcases head_not_ws x hx hx0 with ⟨c, t, rfl, hcw⟩
  have hstep1 : ltrim ((c :: t) ++ ' ' :: y) = (c :: t) ++ ' ' :: y := by
    rw [ltrim_eq_dropWhile, List.cons_append, List.dropWhile_cons, if_neg (by simp [hcw])]
  have hylast := last_not_ws y hy hy0
  have hdecomp : (c :: t) ++ ' ' :: y =
      ((c :: t) ++ ' ' :: y.dropLast) ++ [y.getLast hy0] := by
    conv_lhs => rw [← List.dropLast_append_getLast hy0]
    simp [List.append_assoc]
  have hstep2 : rtrim ((c :: t) ++ ' ' :: y) = (c :: t) ++ ' ' :: y := by
    rw [rtrim_eq_rdropWhile, hdecomp, List.rdropWhile_concat_neg _ _ _ (by simp [hylast])]
  unfold trim
  rw [hstep1, hstep2]

lemma clean_append_clean (x y : Str) (hx : trim x = x) (hx0 : x ≠ [])
    (hy : trim y = y) (hy0 : y ≠ []) :
    trim (x ++ ' ' :: y) = x ++ ' ' :: y ∧ x ++ ' ' :: y ≠ [] :=
  ⟨trim_append_clean x y hx hx0 hy hy0, by simp⟩

/-! Claim C4: description accumulation across continuation rows. -/

/-- Texts joined in order with a single space between consecutive pieces. -/
def joinSp : List Str → Str
  | [] => []
  | [x] => x
  | x :: y :: l => x ++ ' ' :: joinSp (y :: l)

lemma joinSp_append_head (a b : Str) (l : List Str) :
    joinSp ((a ++ ' ' :: b) :: l) = a ++ ' ' :: joinSp (b :: l) := by
  cases l with
  | nil => rfl
  | cons c l' => simp [joinSp, List.append_assoc]

/-- The hypotheses C4 places on one continuation row: at least the Date
and Particulars columns, and a Particulars text that is non-blank in the
engine's sense (spec §4.1 blank-equivalent) and carries no edge
whitespace. -/
def contOk (x : Row) : Prop :=
  2 ≤ x.length ∧ trim (x.getD 1 []) = x.getD 1 [] ∧ x.getD 1 [] ≠ [] ∧
    lower (x.getD 1 []) ≠ "nan".data

lemma fold_desc (conts : List Row) :
    ∀ R : Row, 2 ≤ R.length →
      trim (R.getD 1 []) = R.getD 1 [] → R.getD 1 [] ≠ [] →
      (∀ x ∈ conts, contOk x) →
      (conts.foldl mergeRow01 R).getD 1 [] =
        joinSp (R.getD 1 [] :: conts.map (fun x => x.getD 1 [])) := by
  induction conts with
  | nil => intro R _ _ _ _; rfl
  | cons x cs ih =>
    intro R hlen hRt hR0 hc
    rcases hc x (List.mem_cons_self x cs) with ⟨hxlen, hxt, hx0, hxnan⟩
    have hcontent : hasContent (x.getD 1 []) = true := by
      simp only [hasContent, hxt]
      exact decide_eq_true (by exact ⟨hx0, hxnan⟩)
    have hstep : (mergeRow01 R x).getD 1 [] = R.getD 1 [] ++ ' ' :: x.getD 1 [] := by
      rw [mergeRow01_getD, if_pos (by omega), if_pos (by omega)]
      simp only [mergeCell01, if_pos hcontent, if_pos rfl, hxt]
      rw [if_pos (show trim (R.getD 1 []) ≠ [] by rw [hRt]; exact hR0), hRt]
      simp
    have hclean := clean_append_clean (R.getD 1 []) (x.getD 1 []) hRt hR0 hxt hx0
    have hIH := ih (mergeRow01 R x)
      (by rw [mergeRow01_length]; exact hlen)
      (by rw [hstep]; exact hclean.1)
      (by rw [hstep]; exact hclean.2)
      (fun y hy => hc y (List.mem_cons_of_mem x hy))
    calc ((x :: cs).foldl mergeRow01 R).getD 1 []
        = (cs.foldl mergeRow01 (mergeRow01 R x)).getD 1 [] := rfl
      _ = joinSp ((mergeRow01 R x).getD 1 [] :: cs.map (fun y => y.getD 1 [])) := hIH
      _ = joinSp ((R.getD 1 [] ++ ' ' :: x.getD 1 []) :: cs.map (fun y => y.getD 1 [])) := by
          rw [hstep]
      _ = R.getD 1 [] ++ ' ' :: joinSp (x.getD 1 [] :: cs.map (fun y => y.getD 1 [])) :=
          joinSp_append_head _ _ _
      _ = joinSp (R.getD 1 [] :: (x :: cs).map (fun y => y.getD 1 [])) := by
          rw [List.map_cons]
          rfl

lemma consolidateAux_conts (conts : List Row)
    (h : ∀ x ∈ conts, isDateRow x = false) :
    ∀ (c : Row) (rest : List Row),
      consolidateAux (some c) (conts ++ rest) =
        consolidateAux (some (conts.foldl mergeRow01 c)) rest := by
  induction conts with
  | nil => intro c rest; rfl
  | cons x cs ih =>
    intro c rest
    have hx : isDateRow x = false := h x (List.mem_cons_self x cs)
    calc consolidateAux (some c) ((x :: cs) ++ rest)
        = consolidateAux (some (mergeRow01 c x)) (cs ++ rest) := by
          simp only [List.cons_append, consolidateAux, hx, Bool.false_eq_true, if_false]
          rfl
      _ = consolidateAux (some (cs.foldl mergeRow01 (mergeRow01 c x))) rest :=
          ih (fun y hy => h y (List.mem_cons_of_mem x hy)) _ _
      _ = consolidateAux (some ((x :: cs).foldl mergeRow01 c)) rest := rfl

/-- Claim C4: when a date-like row `R` is followed by continuation rows
that each carry non-blank Particulars text (with no edge whitespace, as
the code strips each piece) before the next date-like row, the record the
consolidator emits for `R` is the fold of the continuation rows into `R`,
and its Particulars equals `R`'s text and the continuation texts joined in
input order with a single space between consecutive pieces. -/
theorem claim4_description (cur : Option Row) (R Rnext : Row)
    (conts rest : List Row)
    (hR : isDateRow R = true) (hRnext : isDateRow Rnext = true)
    (hcdate : ∀ x ∈ conts, isDateRow x = false)
    (hlenR : 2 ≤ R.length)
    (hdR : trim (R.getD 1 []) = R.getD 1 []) (hdR0 : R.getD 1 [] ≠ [])
    (hok : ∀ x ∈ conts, contOk x) :
    consolidateAux cur (R :: (conts ++ Rnext :: rest)) =
      cur.toList ++ (conts.foldl mergeRow01 R) :: consolidateAux (some Rnext) rest ∧
    (conts.foldl mergeRow01 R).getD 1 [] =
      joinSp (R.getD 1 [] :: conts.map (fun x => x.getD 1 [])) := by
  constructor
  · calc consolidateAux cur (R :: (conts ++ Rnext :: rest))
        = cur.toList ++ consolidateAux (some R) (conts ++ Rnext :: rest) := by
          simp only [consolidateAux, hR, if_true]
      _ = cur.toList ++ consolidateAux (some (conts.foldl mergeRow01 R)) (Rnext :: rest) := by
          rw [consolidateAux_conts conts hcdate]
      _ = cur.toList ++ (conts.foldl mergeRow01 R) :: consolidateAux (some Rnext) rest := by
          simp only [consolidateAux, hRnext, if_true, Option.toList_some]
          rfl
  · exact fold_desc conts R hlenR hdR hdR0 hok

/-- Witness for C4 at the spec's Scenario A: the record for the
01-04-2024 row carries the space-joined description. -/
theorem claim4_description_witness :
    ([[[], "0033-445806-NA".data, [], [], []]].foldl mergeRow01
        ["01-04-2024".data, "UPI-ASHOK".data, [], [], "1000".data]).getD 1 [] =
      joinSp ((["01-04-2024".data, "UPI-ASHOK".data, [], [], "1000".data] : Row).getD 1 []
        :: [[[], "0033-445806-NA".data, [], [], []]].map (fun x => x.getD 1 [])) := by
  have h := claim4_description none
    ["01-04-2024".data, "UPI-ASHOK".data, [], [], "1000".data]
    ["02-04-2024".data, "UPI-VIRU".data, "50".data, [], "950".data]
    [[[], "0033-445806-NA".data, [], [], []]] []
    (by decide) (by decide) (by decide) (by decide) (by decide) (by decide)
    (by intro x hx
        simp only [List.mem_singleton] at hx
        subst hx
        exact ⟨by decide, by decide, by decide, by decide⟩)
  exact h.2

/-! Claims C2 and C6: the column realigner. -/

lemma shiftSeg_length (row : Row) :
    ∀ (len s : Nat) (acc : Row), (shiftSeg row s len acc).length = acc.length := by
  intro len
  induction len with
  | zero => intro s acc; rfl
  | succ n ih =>
    intro s acc
    simp only [shiftSeg]
    rw [ih]
    simp

lemma shiftSeg_getD (row : Row) :
    ∀ (len s : Nat) (acc : Row), s + len ≤ acc.length →
      ∀ j, (shiftSeg row s len acc).getD j [] =
        if s ≤ j ∧ j < s + len then row.getD (j + 1) [] else acc.getD j [] := by
  intro len
  induction len with
  | zero =>
    intro s acc _ j
    rw [if_neg (by omega)]
    rfl
  | succ n ih =>
    intro s acc hle j
    have hs : s < acc.length := by omega
    simp only [shiftSeg]
    rw [ih (s + 1) (acc.set s (row.getD (s + 1) [])) (by simp; omega) j]
    by_cases hj : s + 1 ≤ j ∧ j < s + 1 + n
    · rw [if_pos hj, if_pos (by omega)]
    · rw [if_neg hj]
      by_cases hjs : j = s
      · subst hjs
        rw [getD_set_self _ _ _ hs, if_pos (by omega)]
      · rw [getD_set_ne _ _ _ _ (by omega), if_neg (by omega)]

lemma getD_set_lastClear (l : Row) (j : Nat) (h0 : 0 < l.length) :
    (l.set (l.length - 1) []).getD j [] =
      if j + 1 = l.length then [] else l.getD j [] := by
  by_cases hj : j + 1 = l.length
  · rw [if_pos hj, show l.length - 1 = j by omega, getD_set_self _ _ _ (by omega)]
  · rw [if_neg hj, getD_set_ne _ _ _ _ (by omega)]

lemma rowFixShift_not_blank (a : Nat) (row : Row)
    (hb : isBlankCell (row.getD a []) = false) : rowFixShift a row = row := by
  simp only [rowFixShift, hb, Bool.false_eq_true, if_false]

lemma rowFixShift_length (a : Nat) (row : Row) :
    (rowFixShift a row).length = row.length := by
  by_cases hb : isBlankCell (row.getD a []) = true
  · simp only [rowFixShift, hb, if_true]
    rw [List.length_set, shiftSeg_length, List.length_set]
  · rw [rowFixShift_not_blank a row (by simpa using hb)]

lemma rowFixShift_getD (a : Nat) (row : Row) (ha : a < row.length)
    (hb : isBlankCell (row.getD a []) = true) (j : Nat) :
    (rowFixShift a row).getD j [] =
      if j + 1 = row.length then []
      else if j < a then row.getD j []
      else row.getD (j + 1) [] := by
  simp only [rowFixShift, hb, if_true]
  rw [getD_set_lastClear _ j (by rw [shiftSeg_length]; simp; omega),
    shiftSeg_length, List.length_set,
    shiftSeg_getD row _ _ _ (by simp; omega) j]
  by_cases h1 : j + 1 = row.length
  · rw [if_pos h1, if_pos h1]
  · rw [if_neg h1, if_neg h1]
    by_cases h2 : j < a
    · rw [if_neg (by omega), if_pos h2, getD_set_ne _ _ _ _ (by omega)]
    · rw [if_neg h2]
      by_cases h3 : j = a
      · subst h3
        rw [if_neg (by omega), getD_set_self _ _ _ ha,
          if_pos (show j + 1 < row.length by omega)]
      · by_cases h4 : j + 1 < row.length
        · rw [if_pos (by omega)]
        · rw [if_neg (by omega), getD_set_ne _ _ _ _ (by omega),
            List.getD_eq_default _ _ (by omega), List.getD_eq_default _ _ (by omega)]

lemma rowFixShift_idem (a : Nat) (row : Row) (ha : a < row.length)
    (hcond : isBlankCell (row.getD a []) = true →
      a + 1 < row.length ∧ isBlankCell (row.getD (a + 1) []) = false) :
    rowFixShift a (rowFixShift a row) = rowFixShift a row := by
  by_cases hb : isBlankCell (row.getD a []) = true
  · rcases hcond hb with ⟨h1, h2⟩
    apply rowFixShift_not_blank
    rw [rowFixShift_getD a row ha hb a, if_neg (by omega), if_neg (by omega)]
    exact h2
  · simp only [Bool.not_eq_true] at hb
    rw [rowFixShift_not_blank a row hb, rowFixShift_not_blank a row hb]

lemma rowRotate_not (w d b : Nat) (row : Row)
    (hb : isEmptyOrZero (row.getD b []) = false) : rowRotate w d b row = row := by
  simp only [rowRotate, hb, Bool.false_eq_true, if_false]

lemma rowRotate_getD_b (w d b : Nat) (row : Row) (hblen : b < row.length)
    (hwb : w ≠ b) (hdb : d ≠ b)
    (hz : isEmptyOrZero (row.getD b []) = true) :
    (rowRotate w d b row).getD b [] = row.getD d [] := by
  simp only [rowRotate, hz, if_true]
  rw [getD_set_ne _ _ _ _ hwb, getD_set_ne _ _ _ _ hdb, getD_set_self _ _ _ hblen]

lemma rowRotate_idem (w d b : Nat) (row : Row) (hblen : b < row.length)
    (hwb : w ≠ b) (hdb : d ≠ b)
    (hcond : isEmptyOrZero (row.getD b []) = true →
      isEmptyOrZero (row.getD d []) = false) :
    rowRotate w d b (rowRotate w d b row) = rowRotate w d b row := by
  by_cases hz : isEmptyOrZero (row.getD b []) = true
  · apply rowRotate_not
    rw [rowRotate_getD_b w d b row hblen hwb hdb hz]
    exact hcond hz
  · simp only [Bool.not_eq_true] at hz
    rw [rowRotate_not w d b row hz, rowRotate_not w d b row hz]

set_option maxHeartbeats 1000000 in
/-- Claim C2, amended: one pass of each realigner repair is a fixed point
provided the repair can actually discharge the detection predicate — for
the shift repair, every blank-anchor row must have a non-blank cell
immediately after the anchor; for the rotation repair, every
empty-or-zero-balance row must have a deposit that is not empty-or-zero.
Without these provisos a second pass can shift again (see the
counterexample). -/
theorem claim2_amended :
    (∀ (a : Nat) (rows : List Row),
      (∀ r ∈ rows, a < r.length) →
      (∀ r ∈ rows, isBlankCell (r.getD a []) = true →
        a + 1 < r.length ∧ isBlankCell (r.getD (a + 1) []) = false) →
      tableFixShift a (tableFixShift a rows) = tableFixShift a rows) ∧
    (∀ (w d b : Nat) (rows : List Row), w ≠ b → d ≠ b →
      (∀ r ∈ rows, b < r.length) →
      (∀ r ∈ rows, isEmptyOrZero (r.getD b []) = true →
        isEmptyOrZero (r.getD d []) = false) →
      tableRotate w d b (tableRotate w d b rows) = tableRotate w d b rows) := by
  constructor
  · intro a rows hlen hcond
    unfold tableFixShift
    rw [List.map_map]
    refine List.map_congr_left ?_
    intro r hr
    exact rowFixShift_idem a r (hlen r hr) (hcond r hr)
  · intro w d b rows hwb hdb hlen hcond
    unfold tableRotate
    rw [List.map_map]
    refine List.map_congr_left ?_
    intro r hr
    exact rowRotate_idem w d b r (hlen r hr) hwb hdb (hcond r hr)

/-- Witness for the amended C2: a table whose blank-anchor row has a
non-blank neighbor, and a table whose empty-balance row has a non-zero
deposit; both repairs are fixed points there. -/
theorem claim2_amended_witness :
    tableFixShift 0 (tableFixShift 0 [[[], "r1".data, "50".data]]) =
      tableFixShift 0 [[[], "r1".data, "50".data]] ∧
    tableRotate 0 1 2 (tableRotate 0 1 2 [["5".data, "7".data, []]]) =
      tableRotate 0 1 2 [["5".data, "7".data, []]] := by
  constructor
  · refine claim2_amended.1 0 [[[], "r1".data, "50".data]] ?_ ?_
    · intro r hr
      simp only [List.mem_singleton] at hr
      subst hr
      decide
    · intro r hr
      simp only [List.mem_singleton] at hr
      subst hr
      decide
  · refine claim2_amended.2 0 1 2 [["5".data, "7".data, []]] (by omega) (by omega) ?_ ?_
    · intro r hr
      simp only [List.mem_singleton] at hr
      subst hr
      decide
    · intro r hr
      simp only [List.mem_singleton] at hr
      subst hr
      decide

/-- Counterexample to C2 as stated: when the cell after the anchor is
itself blank (shift repair), or the deposit is itself blank (rotation
repair), the detection predicate is still true after one repair pass and
a second pass changes the output again. -/
theorem claim2_counterexample :
    tableFixShift 0 (tableFixShift 0 [[[], [], "x".data]]) ≠
      tableFixShift 0 [[[], [], "x".data]] ∧
    tableRotate 0 1 2 (tableRotate 0 1 2 [["5".data, [], []]]) ≠
      tableRotate 0 1 2 [["5".data, [], []]] := by
  constructor
  · decide
  · decide

/-- Claim C6: for a row whose anchor cell is blank, the shift repair of
`fix_csv_data_shift` puts the cell after the anchor into the anchor,
moves every later cell one position left, and blanks the last cell; the
row keeps its width, cells before the anchor are untouched, and a row
with a non-blank anchor is returned unchanged. -/
theorem claim6_shift_repair (a : Nat) (row : Row) (ha : a < row.length) :
    (rowFixShift a row).length = row.length ∧
    (isBlankCell (row.getD a []) = false → rowFixShift a row = row) ∧
    (isBlankCell (row.getD a []) = true →
      (a + 1 < row.length → (rowFixShift a row).getD a [] = row.getD (a + 1) []) ∧
      (∀ j, j < a → (rowFixShift a row).getD j [] = row.getD j []) ∧
      (∀ j, a ≤ j → j + 1 < row.length →
        (rowFixShift a row).getD j [] = row.getD (j + 1) []) ∧
      (rowFixShift a row).getD (row.length - 1) [] = []) := by
  refine ⟨rowFixShift_length a row, rowFixShift_not_blank a row, ?_⟩
  intro hb
  refine ⟨?_, ?_, ?_, ?_⟩
  · intro h1
    rw [rowFixShift_getD a row ha hb a, if_neg (by omega), if_neg (by omega)]
  · intro j hj
    rw [rowFixShift_getD a row ha hb j, if_neg (by omega), if_pos hj]
  · intro j hja hj1
    rw [rowFixShift_getD a row ha hb j, if_neg (by omega), if_neg (by omega)]
  · rw [rowFixShift_getD a row ha hb (row.length - 1), if_pos (by omega)]

/-- Witness for C6: the shifted HDFC row keeps width 4, its anchor takes
the neighbor's value, and its last cell is blank. -/
theorem claim6_shift_repair_witness :
    (rowFixShift 1 ["d".data, [], "50".data, "b".data]).length = 4 ∧
    (rowFixShift 1 ["d".data, [], "50".data, "b".data]).getD 1 [] = "50".data ∧
    (rowFixShift 1 ["d".data, [], "50".data, "b".data]).getD 3 [] = [] := by
  have h := claim6_shift_repair 1 ["d".data, [], "50".data, "b".data] (by decide)
  exact ⟨h.1, (h.2.2 (by decide)).1 (by decide), (h.2.2 (by decide)).2.2.2⟩

/-! Claim C8: fate of unparseable amount fields under numeric cleaning. -/

/-- Claim C8, amended: the numeric cleaners do not keep an unparseable
amount field.  In `fix_csv_data_shift`, a field that is blank after comma
stripping is coerced to the number 0 and a non-blank unparseable field
becomes the missing-value marker NaN; in `fix_balance_column_shift`,
`fillna(0)` additionally coerces every unparseable field (blank or not)
to the number 0. -/
theorem claim8_amended :
    (∀ v : Str, removeAll ',' v = [] → cleanNumericShift v = .fin 0) ∧
    (∀ v : Str, removeAll ',' v ≠ [] → pyFloat (removeAll ',' v) = none →
      cleanNumericShift v = .nan) ∧
    (∀ v : Str, removeAll ',' v = [] ∨ pyFloat (removeAll ',' v) = none →
      cleanNumericBal v = .fin 0) := by
  have hshift0 : ∀ v : Str, removeAll ',' v = [] → cleanNumericShift v = .fin 0 := by
    intro v hv
    simp only [cleanNumericShift, hv, if_true]
    rfl
  have hshiftnan : ∀ v : Str, removeAll ',' v ≠ [] → pyFloat (removeAll ',' v) = none →
      cleanNumericShift v = .nan := by
    intro v hv hp
    simp only [cleanNumericShift, hv, if_false, hp]
  refine ⟨hshift0, hshiftnan, ?_⟩
  intro v hv
  rcases hv with hv | hv
  · simp only [cleanNumericBal, hshift0 v hv]
  · by_cases hv0 : removeAll ',' v = []
    · simp only [cleanNumericBal, hshift0 v hv0]
    · simp only [cleanNumericBal, hshiftnan v hv0 hv]

/-- Witness for the amended C8 at concrete unparseable fields. -/
theorem claim8_amended_witness :
    cleanNumericShift [] = .fin 0 ∧
    cleanNumericShift "abc".data = .nan ∧
    cleanNumericBal "abc".data = .fin 0 :=
  ⟨claim8_amended.1 [] (by decide),
   claim8_amended.2.1 "abc".data (by decide) (by decide),
   claim8_amended.2.2 "abc".data (Or.inr (by decide))⟩

/-- Counterexample to C8 as stated: `fix_balance_column_shift` silently
coerces the unparseable amount text "abc" (and the blank field) to the
number 0 instead of keeping it marked invalid. -/
theorem claim8_counterexample :
    pyFloat "abc".data = none ∧ cleanNumericBal "abc".data = .fin 0 ∧
    cleanNumericShift [] = .fin 0 := by
  refine ⟨by decide, by decide, by decide⟩

/-! Claim C10: the leading-blank-column deletion repair preserves table
shape. -/

lemma shiftRowLeft_length (col : Nat) (r : Row) (h : col < r.length) :
    (shiftRowLeft col r).length = r.length := by
  simp [shiftRowLeft]
  omega

lemma shiftRowLeft_getLast (col : Nat) (r : Row) :
    (shiftRowLeft col r).getLast? = some [] := by
  simp [shiftRowLeft]

/-- Claim C10: the leading-blank-column deletion repair of
`empty_column_ident.py` preserves table shape — every row in the repaired
span keeps its cell count (the removed cell is traded for a trailing
blank cell, which is the row's last cell), rows outside the span are
untouched, the row count is unchanged, and the header list keeps its
length. -/
theorem claim10_column_deletion (col start stop : Nat) (rows : List Row)
    (h : ∀ r ∈ rows, col < r.length) :
    (shiftBlock col start stop rows).map List.length = rows.map List.length ∧
    (shiftBlock col start stop rows).length = rows.length ∧
    (∀ r ∈ rows, (shiftRowLeft col r).getLast? = some []) ∧
    (∀ hs : List Str, (fixHeaders col hs).length = hs.length) := by
  refine ⟨?_, ?_, ?_, ?_⟩
  · simp only [shiftBlock, List.map_map]
    rw [show rows.map List.length = rows.enum.map (List.length ∘ Prod.snd) by
      rw [← List.map_map, List.enum_map_snd]]
    refine List.map_congr_left ?_
    intro p hp
    have hmem : p.2 ∈ rows := List.getElem?_mem (List.mem_enum_iff_getElem?.mp hp)
    by_cases hsp : start ≤ p.1 ∧ p.1 < stop
    · simp only [Function.comp_apply, if_pos hsp]
      exact shiftRowLeft_length col p.2 (h p.2 hmem)
    · simp only [Function.comp_apply, if_neg hsp]
  · simp only [shiftBlock, List.length_map, List.enum_length]
  · intro r _
    exact shiftRowLeft_getLast col r
  · intro hs
    simp only [fixHeaders]
    by_cases hcol : col < hs.length
    · rw [if_pos hcol]
      simp [List.length_eraseIdx, hcol]
      omega
    · rw [if_neg hcol]

/-- Witness for C10 on a concrete three-column table. -/
theorem claim10_column_deletion_witness :
    (shiftBlock 1 0 1 [["a".data, [], "b".data]]).map List.length =
      [["a".data, [], "b".data]].map List.length ∧
    (fixHeaders 1 ["x".data, [], "y".data]).length = 3 := by
  have h := claim10_column_deletion 1 0 1 [["a".data, [], "b".data]]
    (by intro r hr; simp only [List.mem_singleton] at hr; subst hr; decide)
  exact ⟨h.1, h.2.2.2 ["x".data, [], "y".data]⟩

end PdfEngine
